import Mathlib

/-!
Verification of the HR Analytics Dashboard analytics core.

The repository is a Django + React HR dashboard.  The frontend source
(`services/api.js`, `ExportButton.jsx`, `DateRangeFilter.jsx`) is embedded
directly.  The backend aggregation layer (Django views computing the
attendance / leave / attrition payloads, the date-range filter and the CSV
exporter) is not part of the available sources, so those components are
modelled from the specification; each such definition carries a
`Modelled from the spec:` doc comment.

Conventions of the embedding:
* JavaScript strings are Lean `String`s (logically `List Char`).
* A nullable JS value is an `Option`; JS truthiness of an optional string
  (`null`/`undefined`/`""` falsy) is `jsTruthy`.
* Calendar dates are modelled as naturals ordered chronologically
  (ISO `YYYY-MM-DD` strings compare lexicographically, which agrees with
  the chronological order, so only the order matters to the claims);
  `monthOf` truncates a date to its calendar month.
* Percentages rounded to one decimal are represented as naturals counting
  tenths of a percent (e.g. `66.7%` is `667`).
-/

/-- JS truthiness of an optional string: `null`/`undefined` and `""` are falsy. -/
def jsTruthy : Option String → Bool
  | none => false
  | some s => decide (s ≠ "")

/-- The value of an optional string when it is truthy, `none` otherwise
(models the JS pattern `if (x) use(x)`). -/
def truthyVal (v : Option String) : Option String :=
  if jsTruthy v then v else none

/-- JS `a || b` on optional strings (`""` counts as falsy). -/
def jsOr (a b : Option String) : Option String :=
  if jsTruthy a then a else b

/-- The `dateRange` objects produced by `DateRangeFilter.jsx`:
`{ startDate: string|null, endDate: string|null }`. -/
structure DateRange where
  startDate : Option String
  endDate : Option String
deriving DecidableEq

/-- `buildDateParams` from `src/unnamed/part_004` (`services/api.js`):
starts from an empty params object, adds `start_date` when
`dateRange?.startDate` is truthy and `end_date` when `dateRange?.endDate`
is truthy.  The JS object under construction is modelled as an
association list of key/value pairs. -/
def buildDateParams (dateRange : Option DateRange) : List (String × String) :=
  let params : List (String × String) := []
  let params :=
    if jsTruthy (dateRange.bind DateRange.startDate) then
      params ++ [("start_date", (dateRange.bind DateRange.startDate).getD "")]
    else params
  let params :=
    if jsTruthy (dateRange.bind DateRange.endDate) then
      params ++ [("end_date", (dateRange.bind DateRange.endDate).getD "")]
    else params
  params

/-- The download filename built by `handleExport` in
`src/frontend/src/components/ExportButton.jsx`:
`'hr_analytics_export'`, then `'_from_' + dateRange.startDate` when
`dateRange?.startDate` is truthy, then `'_to_' + dateRange.endDate` when
`dateRange?.endDate` is truthy, then `'.csv'`.  Modelled at the character
level so that substring claims can be stated. -/
def exportFilename (dateRange : Option DateRange) : List Char :=
  let filename := "hr_analytics_export".data
  let filename :=
    if jsTruthy (dateRange.bind DateRange.startDate) then
      filename ++ "_from_".data ++ ((dateRange.bind DateRange.startDate).getD "").data
    else filename
  let filename :=
    if jsTruthy (dateRange.bind DateRange.endDate) then
      filename ++ "_to_".data ++ ((dateRange.bind DateRange.endDate).getD "").data
    else filename
  filename ++ ".csv".data

/-- An axios response as seen by the service layer: the service functions
only ever read `response.data`. -/
structure ApiResponse (α : Type) where
  data : α
deriving DecidableEq

/-- An axios error, following the three branches `handleApiError`
distinguishes: `error.response` (with HTTP status and the optional
`data.error` / `data.message` fields), `error.request` (no response), and a
request-setup error carrying `error.message`. -/
inductive ApiError where
  | response (status : Nat) (errField : Option String) (msgField : Option String)
  | request
  | setup (message : String)
deriving DecidableEq

/-- `handleApiError` from `src/unnamed/part_004` / `services/api.js`:
produces the console-error line for an error.  It only formats and logs;
it does not transform the error. -/
def handleApiError (error : ApiError) (defaultMessage : String) : String :=
  match error with
  | .response status errField msgField =>
    let message := jsOr errField msgField
    if status == 404 then
      defaultMessage ++ ": Resource not found"
    else if 500 ≤ status then
      defaultMessage ++ ": Server error"
    else
      defaultMessage ++ ": " ++ (jsOr message (some "Unknown error")).getD ""
  | .request =>
    defaultMessage ++ ": No response from server. Please check if the backend is running."
  | .setup message =>
    defaultMessage ++ ": " ++ message

/-- The common `try { get; return response.data } catch { handleApiError; throw }`
shape of every service function in `services/api.js`.  The HTTP layer is an
external collaborator, passed in as `get`; the result pairs the value the
caller observes with the list of console-error lines emitted. -/
def serviceCall {α : Type} (get : List (String × String) → Except ApiError (ApiResponse α))
    (params : List (String × String)) (defaultMessage : String) :
    Except ApiError α × List String :=
  match get params with
  | .ok response => (.ok response.data, [])
  | .error e => (.error e, [handleApiError e defaultMessage])

/-- `getAttendanceAnalytics` from `src/unnamed/part_004`. -/
def getAttendanceAnalytics {α : Type}
    (get : List (String × String) → Except ApiError (ApiResponse α))
    (dateRange : Option DateRange) : Except ApiError α × List String :=
  serviceCall get (buildDateParams dateRange) "Failed to fetch attendance analytics"

/-- `getLeaveAnalytics` from `src/unnamed/part_004`. -/
def getLeaveAnalytics {α : Type}
    (get : List (String × String) → Except ApiError (ApiResponse α))
    (dateRange : Option DateRange) : Except ApiError α × List String :=
  serviceCall get (buildDateParams dateRange) "Failed to fetch leave analytics"

/-- `getAttritionAnalytics` from `src/unnamed/part_004`. -/
def getAttritionAnalytics {α : Type}
    (get : List (String × String) → Except ApiError (ApiResponse α))
    (dateRange : Option DateRange) : Except ApiError α × List String :=
  serviceCall get (buildDateParams dateRange) "Failed to fetch attrition analytics"

/-- `getEmployees` from `src/unnamed/part_004` (no query parameters). -/
def getEmployees {α : Type}
    (get : List (String × String) → Except ApiError (ApiResponse α)) :
    Except ApiError α × List String :=
  serviceCall get [] "Failed to fetch employees"

/-- `exportCSV` from `src/unnamed/part_004` (the blob response type is
irrelevant to the control flow, which is the shared service shape). -/
def exportCSV {α : Type}
    (get : List (String × String) → Except ApiError (ApiResponse α))
    (dateRange : Option DateRange) : Except ApiError α × List String :=
  serviceCall get (buildDateParams dateRange) "Failed to export CSV"

/-! ### The analytics core, modelled from the specification

The Django backend (models and aggregation views) is not among the
available sources; the definitions below are modelled from the
specification's component design (sections 4.1-4.5). -/

/-- Attendance status: `present`, `absent` or `late`. -/
inductive AttStatus where
  | present
  | absent
  | late
deriving DecidableEq

/-- An attendance row joined with its employee's department, as consumed by
the Attendance Aggregator. -/
structure AttendanceRow where
  employeeId : Nat
  department : String
  date : Nat
  status : AttStatus
deriving DecidableEq

/-- A leave type: `sick`, `vacation` or `personal`. -/
inductive LeaveType where
  | sick
  | vacation
  | personal
deriving DecidableEq

/-- A leave row as consumed by the Leave Aggregator. -/
structure LeaveRow where
  employeeId : Nat
  leave_type : LeaveType
  start_date : Nat
  end_date : Nat
  days : Nat
deriving DecidableEq

/-- An employee row as consumed by the Attrition Aggregator (`is_active`
false means voluntarily left; `updated_at` is the last-modified proxy used
for the departure month). -/
structure Employee where
  name : String
  department : String
  hire_date : Nat
  is_active : Bool
  updated_at : Nat
deriving DecidableEq

/-- Calendar month of an encoded date (dates are encoded as `YYYYMMDD`
numbers, so the month at year-month granularity is the quotient by 100). -/
def monthOf (date : Nat) : Nat := date / 100

/-- Rounding of the quotient `a / b` to the nearest integer, halves up. -/
def roundDiv (a b : Nat) : Nat := (2 * a + b) / (2 * b)

/-- Modelled from the spec: a percentage `(n / d) * 100` rounded to one
decimal place, represented in tenths of a percent, and `0.0` when the
denominator is zero (sections 4.2 and 4.4: "defined as 0.0 when the
filtered set is empty (avoid division by zero)"). -/
def pctTenths (n d : Nat) : Nat :=
  if d = 0 then 0 else roundDiv (n * 1000) d

/-- One point of the attendance trend series. -/
structure TrendEntry where
  date : Nat
  present_count : Nat
  absent_count : Nat
deriving DecidableEq

/-- One entry of the per-department breakdown (rate in tenths of a percent). -/
structure DeptEntry where
  department : String
  absenteeism_rate : Nat
deriving DecidableEq

/-- The attendance analytics payload (rates in tenths of a percent). -/
structure AttendanceAnalytics where
  absenteeism_rate : Nat
  total_working_days : Nat
  total_absent_days : Nat
  trend_data : List TrendEntry
  department_breakdown : List DeptEntry
deriving DecidableEq

/-- Modelled from the spec: the backend Attendance Aggregator (section 4.2;
the Django view is not among the available sources).  Given the filtered
attendance rows it computes the absenteeism rate, raw counts, the daily
trend (one entry per distinct date, ascending; `late` in neither bucket)
and the per-department breakdown (one entry per distinct department,
in order of first appearance). -/
def attendanceAnalytics (rows : List AttendanceRow) : AttendanceAnalytics :=
  let total := rows.length
  let absent := (rows.filter (fun r => decide (r.status = AttStatus.absent))).length
  let dates := ((rows.map (·.date)).dedup).insertionSort (· ≤ ·)
  let trend := dates.map (fun d =>
    { date := d
      present_count :=
        (rows.filter (fun r => decide (r.date = d ∧ r.status = AttStatus.present))).length
      absent_count :=
        (rows.filter (fun r => decide (r.date = d ∧ r.status = AttStatus.absent))).length })
  let depts := (rows.map (·.department)).dedup
  let breakdown := depts.map (fun dep =>
    let deptRows := rows.filter (fun r => decide (r.department = dep))
    { department := dep
      absenteeism_rate :=
        pctTenths
          ((deptRows.filter (fun r => decide (r.status = AttStatus.absent))).length)
          deptRows.length })
  { absenteeism_rate := pctTenths absent total
    total_working_days := total
    total_absent_days := absent
    trend_data := trend
    department_breakdown := breakdown }

/-- The per-type leave totals. -/
structure LeaveByType where
  sick : Nat
  vacation : Nat
  personal : Nat
deriving DecidableEq

/-- One point of a monthly trend of summed leave days. -/
structure MonthDays where
  month : Nat
  days : Nat
deriving DecidableEq

/-- The leave analytics payload. -/
structure LeaveAnalytics where
  leave_by_type : LeaveByType
  total_leave_days : Nat
  monthly_trend : List MonthDays
deriving DecidableEq

/-- Modelled from the spec: the backend Leave Aggregator (section 4.3; the
Django view is not among the available sources).  `total_leave_days` is the
sum of `days` over the whole filtered row set (the aggregate a SQL `Sum`
over the queryset produces); each `leave_by_type` field sums `days` over
the rows of that type. -/
def leaveAnalytics (rows : List LeaveRow) : LeaveAnalytics :=
  let sumDays := fun (l : List LeaveRow) => (l.map (·.days)).sum
  let months := ((rows.map (fun r => monthOf r.start_date)).dedup).insertionSort (· ≤ ·)
  { leave_by_type :=
      { sick := sumDays (rows.filter (fun r => decide (r.leave_type = LeaveType.sick)))
        vacation := sumDays (rows.filter (fun r => decide (r.leave_type = LeaveType.vacation)))
        personal := sumDays (rows.filter (fun r => decide (r.leave_type = LeaveType.personal))) }
    total_leave_days := sumDays rows
    monthly_trend := months.map (fun m =>
      { month := m
        days := sumDays (rows.filter (fun r => decide (monthOf r.start_date = m))) }) }

/-- One point of the attrition monthly trend (rate in tenths of a percent). -/
structure MonthAttrition where
  month : Nat
  left_count : Nat
  attrition_rate : Nat
deriving DecidableEq

/-- The attrition analytics payload (rates in tenths of a percent). -/
structure AttritionAnalytics where
  attrition_rate : Nat
  employees_left : Nat
  total_employees : Nat
  monthly_trend : List MonthAttrition
deriving DecidableEq

/-- Modelled from the spec: the backend Attrition Aggregator (section 4.4;
the Django view is not among the available sources).  The overall rate is
`inactive / all employees * 100` rounded to one decimal; the monthly trend
buckets departures by the `updated_at` month proxy and uses the all-time
headcount as denominator. -/
def attritionAnalytics (employees : List Employee) : AttritionAnalytics :=
  let total := employees.length
  let leftRows := employees.filter (fun e => decide (e.is_active = false))
  let months := ((leftRows.map (fun e => monthOf e.updated_at)).dedup).insertionSort (· ≤ ·)
  { attrition_rate := pctTenths leftRows.length total
    employees_left := leftRows.length
    total_employees := total
    monthly_trend := months.map (fun m =>
      let monthLeft := (leftRows.filter (fun e => decide (monthOf e.updated_at = m))).length
      { month := m
        left_count := monthLeft
        attrition_rate := pctTenths monthLeft total }) }

/-- The date-range filter's only error kind. -/
inductive FilterError where
  | invalidRangeError
deriving DecidableEq

/-- Modelled from the spec: the backend Date-Range Filter (section 4.1; the
Django-side validation is not among the available sources).  Given optional
bounds it either fails with `InvalidRangeError` (both bounds present and
end before start) or restricts the rows to those whose date lies in the
inclusive range, an absent bound being unbounded on that side. -/
def applyDateFilter {α : Type} (dateOf : α → Nat) (startDate endDate : Option Nat)
    (rows : List α) : Except FilterError (List α) :=
  match startDate, endDate with
  | some s, some e =>
    if e < s then .error FilterError.invalidRangeError
    else .ok (rows.filter (fun r => decide (s ≤ dateOf r ∧ dateOf r ≤ e)))
  | some s, none => .ok (rows.filter (fun r => decide (s ≤ dateOf r)))
  | none, some e => .ok (rows.filter (fun r => decide (dateOf r ≤ e)))
  | none, none => .ok rows

/-! ### CSV export, modelled from the specification

Section 4.5: the exporter flattens an analytics payload into a CSV
document (header row of field names, one data row per entry of the most
granular sub-sequence) and must be loss-free: re-parsing the CSV
reconstructs the payload's numeric/string values exactly.  A CSV document
is modelled structurally as its rows of cells (`List (List String)`);
numbers are rendered to decimal text in the cells, one-decimal rates as
`<int>.<digit>`. -/

/-- The character of a decimal digit. -/
def digitChar (d : Nat) : Char := Char.ofNat (48 + d)

/-- Numeric value of a decimal digit character. -/
def charDigit (c : Char) : Nat := c.toNat - 48

/-- Decimal rendering of a natural number. -/
def renderNat (n : Nat) : String :=
  if n = 0 then "0" else ⟨((Nat.digits 10 n).map digitChar).reverse⟩

/-- Parse a non-empty all-digit character list as a natural number. -/
def parseNatL (l : List Char) : Option Nat :=
  if l ≠ [] ∧ l.all Char.isDigit then
    some (Nat.ofDigits 10 ((l.map charDigit).reverse))
  else none

/-- Parse a decimal natural number cell. -/
def parseNatS (s : String) : Option Nat := parseNatL s.data

/-- Render a one-decimal percentage (stored in tenths) as `<int>.<digit>`,
e.g. `667` becomes `"66.7"`. -/
def renderTenths (t : Nat) : String :=
  renderNat (t / 10) ++ "." ++ renderNat (t % 10)

/-- Split a character list at its first `'.'`. -/
def splitDot : List Char → Option (List Char × List Char)
  | [] => none
  | c :: rest =>
    if c = '.' then some ([], rest)
    else (splitDot rest).map (fun p => (c :: p.1, p.2))

/-- Parse a one-decimal cell `<int>.<digit>` back into tenths. -/
def parseTenthsS (s : String) : Option Nat :=
  match splitDot s.data with
  | some (a, b) =>
    match parseNatL a, parseNatL b with
    | some x, some y => if b.length = 1 then some (x * 10 + y) else none
    | _, _ => none
  | none => none

/-- Modelled from the spec: CSV serialization of the attendance payload
(scalar header and row, then the `trend_data` section, then the
`department_breakdown` section). -/
def attendanceToCSV (p : AttendanceAnalytics) : List (List String) :=
  [["absenteeism_rate", "total_working_days", "total_absent_days"],
   [renderTenths p.absenteeism_rate, renderNat p.total_working_days,
    renderNat p.total_absent_days],
   ["trend_data"],
   ["date", "present_count", "absent_count"]]
  ++ p.trend_data.map (fun e =>
      [renderNat e.date, renderNat e.present_count, renderNat e.absent_count])
  ++ [["department_breakdown"], ["department", "absenteeism_rate"]]
  ++ p.department_breakdown.map (fun e =>
      [e.department, renderTenths e.absenteeism_rate])

/-- Parse every element of a list, failing if any element fails. -/
def mapMO {a b : Type} (g : a → Option b) : List a → Option (List b)
  | [] => some []
  | x :: xs =>
    match g x, mapMO g xs with
    | some y, some ys => some (y :: ys)
    | _, _ => none

/-- Parse one `trend_data` CSV row. -/
def parseTrendRow : List String → Option TrendEntry
  | [d, pc, ac] =>
    match parseNatS d, parseNatS pc, parseNatS ac with
    | some d', some p', some a' => some ⟨d', p', a'⟩
    | _, _, _ => none
  | _ => none

/-- Parse one `department_breakdown` CSV row. -/
def parseDeptRow : List String → Option DeptEntry
  | [dep, r] => (parseTenthsS r).map (fun r' => ⟨dep, r'⟩)
  | _ => none

/-- The leading run of three-cell rows of a CSV tail, together with the
remainder (the `trend_data` section ends at the one-cell
`department_breakdown` marker row). -/
def takeRows3 : List (List String) → List (List String) × List (List String)
  | [] => ([], [])
  | row :: rest =>
    if row.length = 3 then
      let p := takeRows3 rest
      (row :: p.1, p.2)
    else ([], row :: rest)

/-- Modelled from the spec: schema-directed re-parsing of an attendance
CSV document, the inverse direction of the loss-free contract.  The
`trend_data` section is the run of three-cell rows before the one-cell
`department_breakdown` marker. -/
def parseAttendanceCSV (rows : List (List String)) : Option AttendanceAnalytics :=
  match rows with
  | _ :: [rc, wc, ac] :: _ :: _ :: rest =>
    match parseTenthsS rc, parseNatS wc, parseNatS ac with
    | some rate, some w, some ab =>
      let sp := takeRows3 rest
      match sp.2 with
      | _ :: _ :: deptRows =>
        match mapMO parseTrendRow sp.1, mapMO parseDeptRow deptRows with
        | some trend, some breakdown => some ⟨rate, w, ab, trend, breakdown⟩
        | _, _ => none
      | _ => none
    | _, _, _ => none
  | _ => none

/-- Modelled from the spec: CSV serialization of the leave payload
(the nested `leave_by_type` object is flattened into the scalar row). -/
def leaveToCSV (p : LeaveAnalytics) : List (List String) :=
  [["leave_by_type_sick", "leave_by_type_vacation", "leave_by_type_personal",
    "total_leave_days"],
   [renderNat p.leave_by_type.sick, renderNat p.leave_by_type.vacation,
    renderNat p.leave_by_type.personal, renderNat p.total_leave_days],
   ["monthly_trend"],
   ["month", "days"]]
  ++ p.monthly_trend.map (fun e => [renderNat e.month, renderNat e.days])

/-- Parse one `{month, days}` CSV row. -/
def parseMonthDaysRow : List String → Option MonthDays
  | [m, d] =>
    match parseNatS m, parseNatS d with
    | some m', some d' => some ⟨m', d'⟩
    | _, _ => none
  | _ => none

/-- Modelled from the spec: schema-directed re-parsing of a leave CSV
document. -/
def parseLeaveCSV (rows : List (List String)) : Option LeaveAnalytics :=
  match rows with
  | _ :: [sc, vc, pc, tc] :: _ :: _ :: rest =>
    match parseNatS sc, parseNatS vc, parseNatS pc, parseNatS tc with
    | some s, some v, some p, some t =>
      (mapMO parseMonthDaysRow rest).map (fun trend => ⟨⟨s, v, p⟩, t, trend⟩)
    | _, _, _, _ => none
  | _ => none

/-- Modelled from the spec: CSV serialization of the attrition payload. -/
def attritionToCSV (p : AttritionAnalytics) : List (List String) :=
  [["attrition_rate", "employees_left", "total_employees"],
   [renderTenths p.attrition_rate, renderNat p.employees_left,
    renderNat p.total_employees],
   ["monthly_trend"],
   ["month", "left_count", "attrition_rate"]]
  ++ p.monthly_trend.map (fun e =>
      [renderNat e.month, renderNat e.left_count, renderTenths e.attrition_rate])

/-- Parse one `{month, left_count, attrition_rate}` CSV row. -/
def parseMonthAttRow : List String → Option MonthAttrition
  | [m, l, r] =>
    match parseNatS m, parseNatS l, parseTenthsS r with
    | some m', some l', some r' => some ⟨m', l', r'⟩
    | _, _, _ => none
  | _ => none

/-- Modelled from the spec: schema-directed re-parsing of an attrition CSV
document. -/
def parseAttritionCSV (rows : List (List String)) : Option AttritionAnalytics :=
  match rows with
  | _ :: [rc, lc, tc] :: _ :: _ :: rest =>
    match parseTenthsS rc, parseNatS lc, parseNatS tc with
    | some r, some l, some t =>
      (mapMO parseMonthAttRow rest).map (fun trend => ⟨r, l, t, trend⟩)
    | _, _, _ => none
  | _ => none

/-! ### Concrete sample data (used by the witness theorems) -/

/-- Adjacent character pairs of a character list (used to reason about
substring occurrences in filenames). -/
def charPairs (l : List Char) : List (Char × Char) := l.zip l.tail

/-- The spec's section 8 attendance example plus one `late` row. -/
def sampleAttendanceRows : List AttendanceRow :=
  [⟨1, "Eng", 20240102, AttStatus.absent⟩,
   ⟨2, "Eng", 20240101, AttStatus.absent⟩,
   ⟨3, "HR", 20240101, AttStatus.present⟩,
   ⟨4, "HR", 20240101, AttStatus.late⟩]

/-- The spec's section 8 leave example. -/
def sampleLeaveRows : List LeaveRow :=
  [⟨1, LeaveType.sick, 20240105, 20240109, 5⟩,
   ⟨2, LeaveType.vacation, 20240201, 20240210, 10⟩,
   ⟨1, LeaveType.sick, 20240301, 20240303, 3⟩]

/-- The spec's section 8 attrition example (two of four employees left). -/
def sampleEmployees : List Employee :=
  [⟨"A", "Eng", 20200101, false, 20240101⟩,
   ⟨"B", "Eng", 20210101, false, 20240201⟩,
   ⟨"C", "HR", 20220101, true, 20240101⟩,
   ⟨"D", "HR", 20230101, true, 20240101⟩]

/-- A concrete date range with both bounds set. -/
def sampleRange : DateRange := ⟨some "2024-01-01", some "2024-02-01"⟩

/-! ### Claim theorems -/

/-- C10: every API service function returns exactly `response.data` on a
successful response, and on any failure logs via `handleApiError` and
rethrows the original error unchanged, so a caller always observes a
failure as a rejection carrying the original error. -/
theorem apiService_error_propagation {α : Type}
    (get : List (String × String) → Except ApiError (ApiResponse α))
    (dateRange : Option DateRange) (resp : ApiResponse α) (e : ApiError) :
    (get (buildDateParams dateRange) = .ok resp →
      getAttendanceAnalytics get dateRange = (.ok resp.data, []) ∧
      getLeaveAnalytics get dateRange = (.ok resp.data, []) ∧
      getAttritionAnalytics get dateRange = (.ok resp.data, []) ∧
      exportCSV get dateRange = (.ok resp.data, [])) ∧
    (get [] = .ok resp → getEmployees get = (.ok resp.data, [])) ∧
    (get (buildDateParams dateRange) = .error e →
      getAttendanceAnalytics get dateRange =
        (.error e, [handleApiError e "Failed to fetch attendance analytics"]) ∧
      getLeaveAnalytics get dateRange =
        (.error e, [handleApiError e "Failed to fetch leave analytics"]) ∧
      getAttritionAnalytics get dateRange =
        (.error e, [handleApiError e "Failed to fetch attrition analytics"]) ∧
      exportCSV get dateRange = (.error e, [handleApiError e "Failed to export CSV"])) ∧
    (get [] = .error e →
      getEmployees get = (.error e, [handleApiError e "Failed to fetch employees"])) := by
  refine ⟨fun h => ?_, fun h => ?_, fun h => ?_, fun h => ?_⟩ <;>
    simp [getAttendanceAnalytics, getLeaveAnalytics, getAttritionAnalytics,
      getEmployees, exportCSV, serviceCall, h]

/-- Witness for C10 at concrete inputs: a successful call returns the
payload, a failed call surfaces the original error and its log line. -/
theorem apiService_error_propagation_witness :
    getAttendanceAnalytics (fun _ => Except.ok (ApiResponse.mk (7 : Nat))) none
      = (Except.ok 7, []) ∧
    getEmployees
        (fun _ => (Except.error ApiError.request : Except ApiError (ApiResponse Nat)))
      = (Except.error ApiError.request,
         [handleApiError ApiError.request "Failed to fetch employees"]) :=
  ⟨((apiService_error_propagation (fun _ => Except.ok (ApiResponse.mk (7 : Nat))) none
      (ApiResponse.mk 7) ApiError.request).1 rfl).1,
   (apiService_error_propagation
      (fun _ => (Except.error ApiError.request : Except ApiError (ApiResponse Nat))) none
      (ApiResponse.mk 0) ApiError.request).2.2.2 rfl⟩

/-- C4: the date-range filter fails with `InvalidRangeError` whenever both
bounds are present and the end precedes the start; equal bounds select
exactly the rows dated that single day; two absent bounds include all
rows. -/
theorem dateRangeFilter_spec {α : Type} (dateOf : α → Nat)
    (startDate endDate : Option Nat) (rows : List α) :
    ((∃ s e, startDate = some s ∧ endDate = some e ∧ e < s) →
      applyDateFilter dateOf startDate endDate rows
        = .error FilterError.invalidRangeError) ∧
    (∀ d, startDate = some d → endDate = some d →
      applyDateFilter dateOf startDate endDate rows
        = .ok (rows.filter (fun r => decide (dateOf r = d)))) ∧
    (startDate = none → endDate = none →
      applyDateFilter dateOf startDate endDate rows = .ok rows) := by
  refine ⟨?_, ?_, ?_⟩
  · rintro ⟨s, e, rfl, rfl, hlt⟩
    simp [applyDateFilter, hlt]
  · rintro d rfl rfl
    simp only [applyDateFilter, lt_irrefl, if_false]
    congr 1
    apply List.filter_congr
    intro r _
    rw [decide_eq_decide]
    omega
  · rintro rfl rfl
    rfl

/-- Witness for C4: a reversed range fails, equal bounds pick the single
day, absent bounds keep everything. -/
theorem dateRangeFilter_spec_witness :
    applyDateFilter id (some 5) (some 3) [1, 2, 3, 4, 5, 6]
      = .error FilterError.invalidRangeError ∧
    applyDateFilter id (some 4) (some 4) [1, 2, 3, 4, 5, 6] = .ok [4] ∧
    applyDateFilter id none none [1, 2, 3, 4, 5, 6] = .ok [1, 2, 3, 4, 5, 6] :=
  ⟨(dateRangeFilter_spec id (some 5) (some 3) [1, 2, 3, 4, 5, 6]).1
      ⟨5, 3, rfl, rfl, by omega⟩,
   by rw [(dateRangeFilter_spec id (some 4) (some 4) [1, 2, 3, 4, 5, 6]).2.1 4 rfl rfl]; rfl,
   (dateRangeFilter_spec id none none [1, 2, 3, 4, 5, 6]).2.2 rfl rfl⟩

/-- The leave-days sum over a row set splits exactly into the three
per-type sums, because every row's type is one of the three. -/
theorem leave_days_partition (rows : List LeaveRow) :
    ((rows.filter (fun r => decide (r.leave_type = LeaveType.sick))).map (·.days)).sum
      + ((rows.filter (fun r => decide (r.leave_type = LeaveType.vacation))).map (·.days)).sum
      + ((rows.filter (fun r => decide (r.leave_type = LeaveType.personal))).map (·.days)).sum
    = (rows.map (·.days)).sum := by
  induction rows with
  | nil => simp
  | cons r rs ih =>
    cases h : r.leave_type <;> simp [List.filter_cons, h] <;> omega

/-- C2: `total_leave_days` equals the integer sum
`sick + vacation + personal` exactly, and a leave type with no matching
records contributes `0`. -/
theorem total_leave_days_spec (rows : List LeaveRow) :
    ((leaveAnalytics rows).leave_by_type.sick
        + (leaveAnalytics rows).leave_by_type.vacation
        + (leaveAnalytics rows).leave_by_type.personal
      = (leaveAnalytics rows).total_leave_days) ∧
    ((∀ r ∈ rows, r.leave_type ≠ LeaveType.sick) →
      (leaveAnalytics rows).leave_by_type.sick = 0) ∧
    ((∀ r ∈ rows, r.leave_type ≠ LeaveType.vacation) →
      (leaveAnalytics rows).leave_by_type.vacation = 0) ∧
    ((∀ r ∈ rows, r.leave_type ≠ LeaveType.personal) →
      (leaveAnalytics rows).leave_by_type.personal = 0) := by
  refine ⟨leave_days_partition rows, fun h => ?_, fun h => ?_, fun h => ?_⟩ <;>
  · simp only [leaveAnalytics]
    rw [List.filter_eq_nil_iff.mpr (by simpa using h)]
    rfl

/-- Witness for C2 at the spec's leave example (which has no `personal`
rows): the three type sums add up to the total, and the missing type
contributes `0`. -/
theorem total_leave_days_spec_witness :
    ((leaveAnalytics sampleLeaveRows).leave_by_type.sick
        + (leaveAnalytics sampleLeaveRows).leave_by_type.vacation
        + (leaveAnalytics sampleLeaveRows).leave_by_type.personal
      = (leaveAnalytics sampleLeaveRows).total_leave_days) ∧
    (leaveAnalytics sampleLeaveRows).leave_by_type.personal = 0 :=
  ⟨(total_leave_days_spec sampleLeaveRows).1,
   (total_leave_days_spec sampleLeaveRows).2.2.2 (by decide)⟩

/-- `roundDiv a b` is the nearest-integer (halves up) rounding of `a / b`:
it is characterized by the two-sided bound below. -/
theorem roundDiv_bounds (a b : Nat) (hb : 0 < b) :
    2 * b * roundDiv a b ≤ 2 * a + b ∧ 2 * a + b < 2 * b * (roundDiv a b + 1) := by
  have hdm := Nat.div_add_mod (2 * a + b) (2 * b)
  have hmod := Nat.mod_lt (2 * a + b) (y := 2 * b) (by omega)
  have hsucc : 2 * b * (roundDiv a b + 1) = 2 * b * roundDiv a b + 2 * b :=
    Nat.mul_succ (2 * b) (roundDiv a b)
  unfold roundDiv at *
  omega

/-- C1: the absenteeism rate (in tenths of a percent) is `0.0` on an empty
filtered set, and otherwise is exactly `absent / total * 100` rounded to
one decimal place — stated as the two-sided bound characterizing the
nearest-tenth rounding of `absent * 1000 / total`. -/
theorem absenteeism_rate_spec (rows : List AttendanceRow) :
    (rows.length = 0 → (attendanceAnalytics rows).absenteeism_rate = 0) ∧
    (0 < rows.length →
      2 * rows.length * (attendanceAnalytics rows).absenteeism_rate
        ≤ 2 * (rows.countP (fun r => decide (r.status = AttStatus.absent)) * 1000)
            + rows.length ∧
      2 * (rows.countP (fun r => decide (r.status = AttStatus.absent)) * 1000)
          + rows.length
        < 2 * rows.length * ((attendanceAnalytics rows).absenteeism_rate + 1)) := by
  constructor
  · intro h
    simp [attendanceAnalytics, pctTenths, h]
  · intro h
    have hne : rows.length ≠ 0 := Nat.pos_iff_ne_zero.mp h
    have hrate : (attendanceAnalytics rows).absenteeism_rate
        = roundDiv
            (rows.countP (fun r => decide (r.status = AttStatus.absent)) * 1000)
            rows.length := by
      simp [attendanceAnalytics, pctTenths, hne, ← List.countP_eq_length_filter]
    rw [hrate]
    exact roundDiv_bounds _ _ h

/-- Witness for C1: the empty set gives `0.0`, and on the spec example
enlarged by a `late` row (2 absences out of 4 rows) the rate satisfies the
rounding bound. -/
theorem absenteeism_rate_spec_witness :
    (attendanceAnalytics []).absenteeism_rate = 0 ∧
    (2 * sampleAttendanceRows.length
        * (attendanceAnalytics sampleAttendanceRows).absenteeism_rate
      ≤ 2 * (sampleAttendanceRows.countP
            (fun r => decide (r.status = AttStatus.absent)) * 1000)
          + sampleAttendanceRows.length) :=
  ⟨(absenteeism_rate_spec []).1 rfl,
   ((absenteeism_rate_spec sampleAttendanceRows).2 (by decide)).1⟩

/-- C3: the attrition rate (in tenths of a percent) is `0.0` when there
are no employees, and otherwise is exactly `inactive / total * 100`
rounded to one decimal place — stated as the two-sided bound
characterizing the nearest-tenth rounding of `inactive * 1000 / total`. -/
theorem attrition_rate_spec (employees : List Employee) :
    (employees.length = 0 → (attritionAnalytics employees).attrition_rate = 0) ∧
    (0 < employees.length →
      2 * employees.length * (attritionAnalytics employees).attrition_rate
        ≤ 2 * (employees.countP (fun e => decide (e.is_active = false)) * 1000)
            + employees.length ∧
      2 * (employees.countP (fun e => decide (e.is_active = false)) * 1000)
          + employees.length
        < 2 * employees.length
            * ((attritionAnalytics employees).attrition_rate + 1)) := by
  constructor
  · intro h
    simp [attritionAnalytics, pctTenths, h]
  · intro h
    have hne : employees.length ≠ 0 := Nat.pos_iff_ne_zero.mp h
    have hrate : (attritionAnalytics employees).attrition_rate
        = roundDiv
            (employees.countP (fun e => decide (e.is_active = false)) * 1000)
            employees.length := by
      simp [attritionAnalytics, pctTenths, hne, ← List.countP_eq_length_filter]
    rw [hrate]
    exact roundDiv_bounds _ _ h

/-- Witness for C3: zero employees give `0.0`, and the spec example
(2 inactive of 4) satisfies the rounding bound. -/
theorem attrition_rate_spec_witness :
    (attritionAnalytics []).attrition_rate = 0 ∧
    (2 * sampleEmployees.length
        * (attritionAnalytics sampleEmployees).attrition_rate
      ≤ 2 * (sampleEmployees.countP (fun e => decide (e.is_active = false)) * 1000)
          + sampleEmployees.length) :=
  ⟨(attrition_rate_spec []).1 rfl,
   ((attrition_rate_spec sampleEmployees).2 (by decide)).1⟩

/-- The rows of one date split exactly into present, absent and late. -/
theorem att_status_partition (rows : List AttendanceRow) (d : Nat) :
    rows.countP (fun r => decide (r.date = d ∧ r.status = AttStatus.present))
      + rows.countP (fun r => decide (r.date = d ∧ r.status = AttStatus.absent))
      + rows.countP (fun r => decide (r.date = d ∧ r.status = AttStatus.late))
    = rows.countP (fun r => decide (r.date = d)) := by
  induction rows with
  | nil => rfl
  | cons r rs ih =>
    by_cases hd : r.date = d
    · cases hs : r.status <;> simp [List.countP_cons, hd, hs] at ih ⊢ <;> omega
    · simp [List.countP_cons, hd] at ih ⊢
      omega

/-- C6: `trend_data` has one entry per distinct date of the filtered set,
in strictly ascending date order; a `late` row counts toward neither the
present nor the absent bucket of its date (the three statuses partition
each date's rows), yet every row counts toward `total_working_days`. -/
theorem trend_data_spec (rows : List AttendanceRow) :
    List.Sorted (· < ·) ((attendanceAnalytics rows).trend_data.map (·.date)) ∧
    (∀ d, d ∈ (attendanceAnalytics rows).trend_data.map (·.date)
      ↔ d ∈ rows.map (·.date)) ∧
    (∀ e ∈ (attendanceAnalytics rows).trend_data,
      e.present_count
          = rows.countP (fun r => decide (r.date = e.date ∧ r.status = AttStatus.present)) ∧
      e.absent_count
          = rows.countP (fun r => decide (r.date = e.date ∧ r.status = AttStatus.absent)) ∧
      e.present_count + e.absent_count
          + rows.countP (fun r => decide (r.date = e.date ∧ r.status = AttStatus.late))
        = rows.countP (fun r => decide (r.date = e.date))) ∧
    (attendanceAnalytics rows).total_working_days = rows.length := by
  have htd : (attendanceAnalytics rows).trend_data
      = (((rows.map (·.date)).dedup).insertionSort (· ≤ ·)).map (fun d =>
          TrendEntry.mk d
            ((rows.filter
                (fun r => decide (r.date = d ∧ r.status = AttStatus.present))).length)
            ((rows.filter
                (fun r => decide (r.date = d ∧ r.status = AttStatus.absent))).length)) :=
    rfl
  have hdates : (attendanceAnalytics rows).trend_data.map (·.date)
      = ((rows.map (·.date)).dedup).insertionSort (· ≤ ·) := by
    rw [htd, List.map_map]
    simp [Function.comp_def]
  refine ⟨?_, ?_, ?_, rfl⟩
  · rw [hdates]
    exact List.Sorted.lt_of_le (List.sorted_insertionSort _ _)
      ((List.perm_insertionSort _ _).nodup_iff.mpr (List.nodup_dedup _))
  · intro d
    rw [hdates, List.mem_insertionSort, List.mem_dedup]
  · intro e he
    rw [htd] at he
    obtain ⟨d, _, rfl⟩ := List.mem_map.mp he
    refine ⟨(List.countP_eq_length_filter _ _).symm,
            (List.countP_eq_length_filter _ _).symm, ?_⟩
    simp only [← List.countP_eq_length_filter]
    exact att_status_partition rows d

/-- Witness for C6 on the sample rows: ascending distinct dates, the late
row of 2024-01-01 in neither bucket, all four rows counted as working
days. -/
theorem trend_data_spec_witness :
    List.Sorted (· < ·)
      ((attendanceAnalytics sampleAttendanceRows).trend_data.map (·.date)) ∧
    ((TrendEntry.mk 20240101 1 1).present_count
        + (TrendEntry.mk 20240101 1 1).absent_count
        + sampleAttendanceRows.countP
            (fun r => decide (r.date = (TrendEntry.mk 20240101 1 1).date
              ∧ r.status = AttStatus.late))
      = sampleAttendanceRows.countP
          (fun r => decide (r.date = (TrendEntry.mk 20240101 1 1).date))) ∧
    (attendanceAnalytics sampleAttendanceRows).total_working_days
      = sampleAttendanceRows.length :=
  ⟨(trend_data_spec sampleAttendanceRows).1,
   ((trend_data_spec sampleAttendanceRows).2.2.1 (TrendEntry.mk 20240101 1 1)
      (by decide)).2.2,
   (trend_data_spec sampleAttendanceRows).2.2.2⟩

/-- Summing a pointwise sum of two functions over a list splits into the
two sums. -/
theorem sum_map_add {β : Type} (ds : List β) (f g : β → Nat) :
    (ds.map (fun b => f b + g b)).sum = (ds.map f).sum + (ds.map g).sum := by
  induction ds with
  | nil => rfl
  | cons d ds ih => simp [ih]; omega

/-- Over a duplicate-free list containing `b`, the indicator of `b` sums
to exactly one. -/
theorem sum_indicator_nodup {β : Type} [DecidableEq β] {ds : List β} {b : β}
    (hnd : ds.Nodup) (hb : b ∈ ds) :
    (ds.map (fun x => if b = x then 1 else 0)).sum = 1 := by
  induction ds with
  | nil => cases hb
  | cons c cs ih =>
    rcases List.mem_cons.mp hb with rfl | hb'
    · have hnotin : b ∉ cs := (List.nodup_cons.mp hnd).1
      have hz : (cs.map (fun x => if b = x then 1 else 0)).sum = 0 := by
        apply List.sum_eq_zero
        intro x hx
        obtain ⟨y, hy, rfl⟩ := List.mem_map.mp hx
        have hby : b ≠ y := fun h => hnotin (h ▸ hy)
        simp [hby]
      simp [hz]
    · have hbc : b ≠ c := by
        rintro rfl
        exact (List.nodup_cons.mp hnd).1 hb'
      simp [hbc, ih (List.nodup_cons.mp hnd).2 hb']

/-- Counting rows by key over any duplicate-free list of keys covering the
rows recovers the total row count: the key fibers partition the rows. -/
theorem sum_countP_partition {α β : Type} [DecidableEq β] (key : α → β)
    (rows : List α) (ds : List β) (hnd : ds.Nodup)
    (hcov : ∀ r ∈ rows, key r ∈ ds) :
    (ds.map (fun b => rows.countP (fun r => decide (key r = b)))).sum
      = rows.length := by
  induction rows with
  | nil => simp
  | cons r rs ih =>
    have hr : key r ∈ ds := hcov r (List.mem_cons_self r rs)
    have hrs : ∀ x ∈ rs, key x ∈ ds := fun x hx => hcov x (List.mem_cons_of_mem r hx)
    have hsplit : (ds.map (fun b => (r :: rs).countP (fun x => decide (key x = b)))).sum
        = (ds.map (fun b => rs.countP (fun x => decide (key x = b)))).sum
          + (ds.map (fun b => if key r = b then 1 else 0)).sum := by
      simp only [List.countP_cons, decide_eq_true_eq]
      exact sum_map_add ds _ _
    rw [hsplit, ih hrs, sum_indicator_nodup hnd hr]
    simp

/-- C5: `department_breakdown` has exactly one entry per distinct
department represented in the filtered set, each entry's rate is the
absenteeism formula restricted to that department's rows, and the
per-department row counts sum to the total filtered row count. -/
theorem department_breakdown_spec (rows : List AttendanceRow) :
    ((attendanceAnalytics rows).department_breakdown.map (·.department)).Nodup ∧
    (∀ dep, dep ∈ (attendanceAnalytics rows).department_breakdown.map (·.department)
      ↔ dep ∈ rows.map (·.department)) ∧
    (∀ en ∈ (attendanceAnalytics rows).department_breakdown,
      en.absenteeism_rate
        = pctTenths
            (rows.countP (fun r =>
              decide (r.department = en.department ∧ r.status = AttStatus.absent)))
            (rows.countP (fun r => decide (r.department = en.department)))) ∧
    (((attendanceAnalytics rows).department_breakdown.map
        (fun en => rows.countP (fun r => decide (r.department = en.department)))).sum
      = rows.length) := by
  have hbd : (attendanceAnalytics rows).department_breakdown
      = ((rows.map (·.department)).dedup).map (fun dep =>
          DeptEntry.mk dep
            (pctTenths
              (((rows.filter (fun r => decide (r.department = dep))).filter
                  (fun r => decide (r.status = AttStatus.absent))).length)
              ((rows.filter (fun r => decide (r.department = dep))).length))) :=
    rfl
  have hdeps : (attendanceAnalytics rows).department_breakdown.map (·.department)
      = (rows.map (·.department)).dedup := by
    rw [hbd, List.map_map]
    simp [Function.comp_def]
  refine ⟨?_, ?_, ?_, ?_⟩
  · rw [hdeps]
    exact List.nodup_dedup _
  · intro dep
    rw [hdeps, List.mem_dedup]
  · intro en hen
    rw [hbd] at hen
    obtain ⟨dep, _, rfl⟩ := List.mem_map.mp hen
    have hpred : (fun (r : AttendanceRow) =>
          decide (r.status = AttStatus.absent) && decide (r.department = dep))
        = (fun r => decide (r.department = dep ∧ r.status = AttStatus.absent)) := by
      funext r
      simp [Bool.decide_and, Bool.and_comm]
    have hnum : ((rows.filter (fun r => decide (r.department = dep))).filter
          (fun r => decide (r.status = AttStatus.absent))).length
        = rows.countP (fun r =>
            decide (r.department = dep ∧ r.status = AttStatus.absent)) := by
      rw [List.filter_filter, hpred, List.countP_eq_length_filter]
    have hden : (rows.filter (fun r => decide (r.department = dep))).length
        = rows.countP (fun r => decide (r.department = dep)) :=
      (List.countP_eq_length_filter _ _).symm
    show pctTenths
        (((rows.filter (fun r => decide (r.department = dep))).filter
            (fun r => decide (r.status = AttStatus.absent))).length)
        ((rows.filter (fun r => decide (r.department = dep))).length)
      = pctTenths
          (rows.countP (fun r =>
            decide (r.department = dep ∧ r.status = AttStatus.absent)))
          (rows.countP (fun r => decide (r.department = dep)))
    rw [hnum, hden]
  · rw [hbd, List.map_map]
    have hsum := sum_countP_partition (fun r : AttendanceRow => r.department) rows
      ((rows.map (·.department)).dedup) (List.nodup_dedup _)
      (fun r hr => List.mem_dedup.mpr (List.mem_map.mpr ⟨r, hr, rfl⟩))
    simpa [Function.comp_def] using hsum

/-- Witness for C5 on the sample rows (spec section 8 example plus a late
HR row): distinct departments, the Eng entry's 100% rate matches the
restricted formula, and the Eng/HR row counts sum to all four rows. -/
theorem department_breakdown_spec_witness :
    ((attendanceAnalytics sampleAttendanceRows).department_breakdown.map
        (·.department)).Nodup ∧
    (DeptEntry.mk "Eng" 1000).absenteeism_rate
      = pctTenths
          (sampleAttendanceRows.countP (fun r =>
            decide (r.department = (DeptEntry.mk "Eng" 1000).department
              ∧ r.status = AttStatus.absent)))
          (sampleAttendanceRows.countP (fun r =>
            decide (r.department = (DeptEntry.mk "Eng" 1000).department))) ∧
    (((attendanceAnalytics sampleAttendanceRows).department_breakdown.map
        (fun en => sampleAttendanceRows.countP
          (fun r => decide (r.department = en.department)))).sum
      = sampleAttendanceRows.length) :=
  ⟨(department_breakdown_spec sampleAttendanceRows).1,
   (department_breakdown_spec sampleAttendanceRows).2.2.1
      (DeptEntry.mk "Eng" 1000) (by decide),
   (department_breakdown_spec sampleAttendanceRows).2.2.2⟩

/-- Digit characters decode back to their digit value. -/
theorem charDigit_digitChar {d : Nat} (h : d < 10) : charDigit (digitChar d) = d := by
  interval_cases d <;> rfl

/-- Digit characters satisfy `Char.isDigit`. -/
theorem digitChar_isDigit {d : Nat} (h : d < 10) : (digitChar d).isDigit = true := by
  interval_cases d <;> rfl

/-- Every character of a rendered natural number is a digit. -/
theorem renderNat_all_digits (m : Nat) : ∀ c ∈ (renderNat m).data, c.isDigit = true := by
  intro c hc
  by_cases h0 : m = 0
  · subst h0
    have hc0 : c ∈ ['0'] := hc
    rw [List.mem_singleton] at hc0
    subst hc0
    rfl
  · simp only [renderNat, if_neg h0] at hc
    rw [List.mem_reverse] at hc
    obtain ⟨d, hd, rfl⟩ := List.mem_map.mp hc
    exact digitChar_isDigit (Nat.digits_lt_base (by norm_num) hd)

/-- Decoding the rendered digits of `n` recovers `n`. -/
theorem parseNatS_renderNat (n : Nat) : parseNatS (renderNat n) = some n := by
  by_cases h0 : n = 0
  · subst h0
    rfl
  · have hdata : (renderNat n).data = ((Nat.digits 10 n).map digitChar).reverse := by
      simp [renderNat, h0]
    have hne : ((Nat.digits 10 n).map digitChar).reverse ≠ [] := by
      simp [Nat.digits_ne_nil_iff_ne_zero, h0]
    have hall : (((Nat.digits 10 n).map digitChar).reverse).all Char.isDigit = true := by
      rw [List.all_eq_true]
      intro c hc
      rw [List.mem_reverse] at hc
      obtain ⟨d, hd, rfl⟩ := List.mem_map.mp hc
      exact digitChar_isDigit (Nat.digits_lt_base (by norm_num) hd)
    have hback : ((((Nat.digits 10 n).map digitChar).reverse).map charDigit).reverse
        = Nat.digits 10 n := by
      have hcd : ∀ d ∈ Nat.digits 10 n, (charDigit ∘ digitChar) d = d :=
        fun d hd => charDigit_digitChar (Nat.digits_lt_base (by norm_num) hd)
      rw [List.map_reverse, List.reverse_reverse, List.map_map,
        List.map_congr_left hcd, List.map_id']
    show parseNatL (renderNat n).data = some n
    rw [hdata, parseNatL, if_pos ⟨hne, hall⟩, hback, Nat.ofDigits_digits]

/-- A natural number below ten renders as a single character. -/
theorem renderNat_single {m : Nat} (h : m < 10) : (renderNat m).data.length = 1 := by
  by_cases h0 : m = 0
  · subst h0
    rfl
  · have hdig : Nat.digits 10 m = [m] := by
      rw [Nat.digits_def' (by norm_num : (1 : Nat) < 10) (Nat.pos_of_ne_zero h0),
        Nat.mod_eq_of_lt h, Nat.div_eq_of_lt h, Nat.digits_zero]
    simp [renderNat, h0, hdig]

/-- `splitDot` recovers the two halves around an inserted dot when the
first half is dot-free. -/
theorem splitDot_append (a : List Char) (b : List Char) (ha : '.' ∉ a) :
    splitDot (a ++ '.' :: b) = some (a, b) := by
  induction a with
  | nil => simp [splitDot]
  | cons c cs ih =>
    have hc : ¬(c = '.') := fun hcc => ha (hcc ▸ List.mem_cons_self c cs)
    simp [splitDot, hc, ih (fun hm => ha (List.mem_cons_of_mem c hm))]

/-- Decoding a rendered one-decimal value recovers the tenths count. -/
theorem parseTenthsS_renderTenths (t : Nat) : parseTenthsS (renderTenths t) = some t := by
  have hdot : '.' ∉ (renderNat (t / 10)).data := by
    intro hm
    have := renderNat_all_digits (t / 10) '.' hm
    simp [Char.isDigit] at this
  have hdata : (renderTenths t).data
      = (renderNat (t / 10)).data ++ '.' :: (renderNat (t % 10)).data := by
    simp [renderTenths]
  have hlen : (renderNat (t % 10)).data.length = 1 :=
    renderNat_single (Nat.mod_lt t (by norm_num))
  have hx : parseNatL (renderNat (t / 10)).data = some (t / 10) :=
    parseNatS_renderNat (t / 10)
  have hy : parseNatL (renderNat (t % 10)).data = some (t % 10) :=
    parseNatS_renderNat (t % 10)
  have hval : t / 10 * 10 + t % 10 = t := by omega
  rw [parseTenthsS, hdata, splitDot_append _ _ hdot]
  simp [hx, hy, hlen, hval]

/-- Mapping a rendering over a list and re-parsing each element recovers
the list. -/
theorem mapMO_map_round {α β : Type} (f : α → β) (g : β → Option α)
    (h : ∀ a, g (f a) = some a) (l : List α) : mapMO g (l.map f) = some l := by
  induction l with
  | nil => rfl
  | cons a l ih => simp [mapMO, h, ih]

/-- `takeRows3` splits an append at the first row that does not have three
cells. -/
theorem takeRows3_append (xs : List (List String)) (y : List String)
    (ys : List (List String)) (hall : ∀ x ∈ xs, x.length = 3)
    (hy : y.length ≠ 3) : takeRows3 (xs ++ y :: ys) = (xs, y :: ys) := by
  induction xs with
  | nil => simp [takeRows3, hy]
  | cons x xs ih =>
    have hx : x.length = 3 := hall x (List.mem_cons_self x xs)
    simp [takeRows3, hx, ih (fun z hz => hall z (List.mem_cons_of_mem x hz))]

/-- Round trip of the attendance CSV document. -/
theorem attendance_csv_round (p : AttendanceAnalytics) :
    parseAttendanceCSV (attendanceToCSV p) = some p := by
  have htrend : mapMO parseTrendRow (p.trend_data.map (fun e =>
      [renderNat e.date, renderNat e.present_count,
        renderNat e.absent_count])) = some p.trend_data :=
    mapMO_map_round _ _
      (fun e => by simp [parseTrendRow, parseNatS_renderNat]) _
  have hdept : mapMO parseDeptRow (p.department_breakdown.map (fun e =>
      [e.department, renderTenths e.absenteeism_rate]))
      = some p.department_breakdown :=
    mapMO_map_round _ _
      (fun e => by simp [parseDeptRow, parseTenthsS_renderTenths]) _
  have hspan := takeRows3_append
    (p.trend_data.map (fun e =>
      [renderNat e.date, renderNat e.present_count, renderNat e.absent_count]))
    ["department_breakdown"]
    (["department", "absenteeism_rate"]
      :: p.department_breakdown.map (fun e =>
          [e.department, renderTenths e.absenteeism_rate]))
    (by intro x hx; obtain ⟨e, _, rfl⟩ := List.mem_map.mp hx; rfl)
    (by simp)
  simp [attendanceToCSV, parseAttendanceCSV, parseTenthsS_renderTenths,
    parseNatS_renderNat, hspan, htrend, hdept]

/-- Round trip of the leave CSV document. -/
theorem leave_csv_round (q : LeaveAnalytics) :
    parseLeaveCSV (leaveToCSV q) = some q := by
  have hmon : mapMO parseMonthDaysRow (q.monthly_trend.map (fun e =>
      [renderNat e.month, renderNat e.days]))
      = some q.monthly_trend :=
    mapMO_map_round _ _
      (fun e => by simp [parseMonthDaysRow, parseNatS_renderNat]) _
  simp [leaveToCSV, parseLeaveCSV, parseNatS_renderNat, hmon]

/-- Round trip of the attrition CSV document. -/
theorem attrition_csv_round (r : AttritionAnalytics) :
    parseAttritionCSV (attritionToCSV r) = some r := by
  have hmon : mapMO parseMonthAttRow (r.monthly_trend.map (fun e =>
      [renderNat e.month, renderNat e.left_count,
        renderTenths e.attrition_rate]))
      = some r.monthly_trend :=
    mapMO_map_round _ _
      (fun e => by simp [parseMonthAttRow, parseNatS_renderNat,
        parseTenthsS_renderTenths]) _
  simp [attritionToCSV, parseAttritionCSV, parseNatS_renderNat,
    parseTenthsS_renderTenths, hmon]

/-- C7: serializing any attendance, leave or attrition analytics payload
with the CSV exporter and re-parsing the document reconstructs the
payload exactly — integers exactly, one-decimal rates to the rounding
already applied. -/
theorem csv_round_trip (p : AttendanceAnalytics) (q : LeaveAnalytics)
    (r : AttritionAnalytics) :
    parseAttendanceCSV (attendanceToCSV p) = some p ∧
    parseLeaveCSV (leaveToCSV q) = some q ∧
    parseAttritionCSV (attritionToCSV r) = some r :=
  ⟨attendance_csv_round p, leave_csv_round q, attrition_csv_round r⟩

/-- C8: the query-parameter builder emits `start_date` exactly when the
range's start is present, `end_date` exactly when its end is present
(each bound independently omittable, a null range giving no parameters),
and emits no other parameter.  Values are the JS strings of the range;
per JS truthiness an empty string would count as absent, so the
hypothesis records that dates are never the empty string (the
`DateRangeFilter` component stores `startDate || null`). -/
theorem buildDateParams_spec (dateRange : Option DateRange)
    (hne : ∀ r, dateRange = some r →
      r.startDate ≠ some "" ∧ r.endDate ≠ some "") :
    ((∃ v, ("start_date", v) ∈ buildDateParams dateRange)
      ↔ ∃ r s, dateRange = some r ∧ r.startDate = some s) ∧
    (∀ r s, dateRange = some r → r.startDate = some s →
      ("start_date", s) ∈ buildDateParams dateRange) ∧
    ((∃ v, ("end_date", v) ∈ buildDateParams dateRange)
      ↔ ∃ r s, dateRange = some r ∧ r.endDate = some s) ∧
    (∀ r s, dateRange = some r → r.endDate = some s →
      ("end_date", s) ∈ buildDateParams dateRange) ∧
    (∀ kv ∈ buildDateParams dateRange, kv.1 = "start_date" ∨ kv.1 = "end_date") ∧
    buildDateParams none = [] := by
  cases dateRange with
  | none => simp [buildDateParams, jsTruthy]
  | some r =>
    obtain ⟨hs0, he0⟩ := hne r rfl
    cases hsd : r.startDate with
    | none =>
      cases hed : r.endDate with
      | none =>
        simp [buildDateParams, jsTruthy, hsd, hed]
        exact ⟨fun r1 s h1 h2 => by subst h1; rw [hsd] at h2; exact Option.noConfusion h2,
               fun r1 s h1 h2 => by subst h1; rw [hed] at h2; exact Option.noConfusion h2⟩
      | some e =>
        have he' : e ≠ "" := fun h => he0 (h ▸ hed)
        simp [buildDateParams, jsTruthy, hsd, hed, he']
        exact ⟨fun r1 s h1 h2 => by subst h1; rw [hsd] at h2; exact Option.noConfusion h2,
               fun r1 s h1 h2 => by
                 subst h1; rw [hed] at h2; exact (Option.some.inj h2).symm⟩
    | some st =>
      have hs' : st ≠ "" := fun h => hs0 (h ▸ hsd)
      cases hed : r.endDate with
      | none =>
        simp [buildDateParams, jsTruthy, hsd, hed, hs']
        exact ⟨fun r1 s h1 h2 => by
                 subst h1; rw [hsd] at h2; exact (Option.some.inj h2).symm,
               fun r1 s h1 h2 => by subst h1; rw [hed] at h2; exact Option.noConfusion h2⟩
      | some e =>
        have he' : e ≠ "" := fun h => he0 (h ▸ hed)
        simp [buildDateParams, jsTruthy, hsd, hed, hs', he']
        exact ⟨fun r1 s h1 h2 => by
                 subst h1; rw [hsd] at h2; exact (Option.some.inj h2).symm,
               fun r1 s h1 h2 => by
                 subst h1; rw [hed] at h2; exact (Option.some.inj h2).symm⟩

/-- Witness for C8 at a concrete range with both bounds, and at the null
range. -/
theorem buildDateParams_spec_witness :
    ("start_date", "2024-01-01") ∈ buildDateParams (some sampleRange) ∧
    ("end_date", "2024-02-01") ∈ buildDateParams (some sampleRange) ∧
    buildDateParams none = [] :=
  ⟨(buildDateParams_spec (some sampleRange)
      (by intro r hr; cases hr; exact ⟨by decide, by decide⟩)).2.1
      sampleRange "2024-01-01" rfl rfl,
   (buildDateParams_spec (some sampleRange)
      (by intro r hr; cases hr; exact ⟨by decide, by decide⟩)).2.2.2.1
      sampleRange "2024-02-01" rfl rfl,
   (buildDateParams_spec none (fun r hr => nomatch hr)).2.2.2.2.2⟩

/-- Adjacent pairs of a tail are adjacent pairs of the list. -/
theorem charPairs_cons_sub (c : Char) (l : List Char) :
    charPairs l ⊆ charPairs (c :: l) := by
  cases l with
  | nil => intro x hx; cases hx
  | cons d t =>
    intro x hx
    exact List.mem_cons_of_mem _ hx

/-- Adjacent pairs survive appending on the right. -/
theorem charPairs_append_left (l₁ l₂ : List Char) :
    charPairs l₁ ⊆ charPairs (l₁ ++ l₂) := by
  induction l₁ with
  | nil => intro x hx; cases hx
  | cons c t ih =>
    cases t with
    | nil => intro x hx; cases hx
    | cons d t' =>
      intro x hx
      have hx' : x ∈ (c, d) :: charPairs (d :: t') := hx
      rcases List.mem_cons.mp hx' with rfl | hmem
      · exact List.mem_cons_self _ _
      · exact List.mem_cons_of_mem _ (ih hmem)

/-- Adjacent pairs survive appending on the left. -/
theorem charPairs_append_right (l₁ l₂ : List Char) :
    charPairs l₂ ⊆ charPairs (l₁ ++ l₂) := by
  induction l₁ with
  | nil => intro x hx; exact hx
  | cons c t ih => intro x hx; exact charPairs_cons_sub c (t ++ l₂) (ih hx)

/-- Adjacent pairs of an inner factor are adjacent pairs of the word. -/
theorem charPairs_infix {l₁ l₂ : List Char} (h : l₁ <:+: l₂) :
    charPairs l₁ ⊆ charPairs l₂ := by
  obtain ⟨s, t, rfl⟩ := h
  intro x hx
  rw [List.append_assoc]
  exact charPairs_append_right s _ (charPairs_append_left l₁ t hx)

/-- Both components of an adjacent pair occur in the list. -/
theorem charPairs_mem {a b : Char} {l : List Char}
    (h : (a, b) ∈ charPairs l) : a ∈ l ∧ b ∈ l := by
  have hz := List.of_mem_zip h
  exact ⟨hz.1, List.mem_of_mem_tail hz.2⟩

/-- An adjacent pair of an append lies within the left part, within the
right part, or straddles the seam. -/
theorem mem_charPairs_append {a b : Char} :
    ∀ (l₁ l₂ : List Char), (a, b) ∈ charPairs (l₁ ++ l₂) →
      (a, b) ∈ charPairs l₁ ∨ (l₁.getLast? = some a ∧ l₂.head? = some b)
        ∨ (a, b) ∈ charPairs l₂ := by
  intro l₁
  induction l₁ with
  | nil => exact fun l₂ h => Or.inr (Or.inr h)
  | cons c t ih =>
    intro l₂ h
    cases t with
    | nil =>
      cases l₂ with
      | nil => cases h
      | cons d t₂ =>
        have h' : (a, b) ∈ (c, d) :: charPairs (d :: t₂) := h
        rcases List.mem_cons.mp h' with heq | hmem
        · have hac : a = c ∧ b = d := Prod.mk.injEq .. ▸ heq
          exact Or.inr (Or.inl ⟨by rw [hac.1]; rfl, by rw [hac.2]; rfl⟩)
        · exact Or.inr (Or.inr hmem)
    | cons d t' =>
      have h' : (a, b) ∈ (c, d) :: charPairs ((d :: t') ++ l₂) := h
      rcases List.mem_cons.mp h' with heq | hmem
      · have hac : a = c ∧ b = d := Prod.mk.injEq .. ▸ heq
        obtain ⟨rfl, rfl⟩ := hac
        exact Or.inl (List.mem_cons_self _ _)
      · rcases ih l₂ hmem with h1 | h2 | h3
        · exact Or.inl (List.mem_cons_of_mem _ h1)
        · rw [List.getLast?_cons_cons]
          exact Or.inr (Or.inl h2)
        · exact Or.inr (Or.inr h3)

/-- A filename whose middle part has no `'m'` cannot contain the
`"_from_"` marker (no other segment supplies an `'m'`). -/
theorem no_from_of_no_m (mid : List Char) (hm : 'm' ∉ mid) :
    ¬ ("_from_".data <:+: ("hr_analytics_export".data ++ mid ++ ".csv".data)) := by
  intro h
  have hmem : 'm' ∈ "hr_analytics_export".data ++ mid ++ ".csv".data :=
    h.sublist.subset (by decide)
  rcases List.mem_append.mp hmem with h1 | h2
  · rcases List.mem_append.mp h1 with hA | hMid
    · exact absurd hA (by decide)
    · exact hm hMid
  · exact absurd h2 (by decide)

/-- A filename carrying only a `"_from_"` segment with a digit/hyphen date
cannot contain the `"_to_"` marker: no adjacent `('t', 'o')` pair occurs. -/
theorem no_to_of_from_seg (s : List Char)
    (hs : ∀ c ∈ s, c.isDigit = true ∨ c = '-') :
    ¬ ("_to_".data <:+:
      ("hr_analytics_export".data ++ ("_from_".data ++ s) ++ ".csv".data)) := by
  intro h
  have hp : ('t', 'o') ∈ charPairs
      ("hr_analytics_export".data ++ ("_from_".data ++ s) ++ ".csv".data) :=
    charPairs_infix h (by decide)
  rcases mem_charPairs_append _ _ hp with h1 | h2 | h3
  · rcases mem_charPairs_append _ _ h1 with g1 | g2 | g3
    · exact absurd g1 (by decide)
    · have hhd : ("_from_".data ++ s).head? = some '_' := rfl
      rw [hhd] at g2
      exact absurd g2.2 (by decide)
    · rcases mem_charPairs_append _ _ g3 with k1 | k2 | k3
      · exact absurd k1 (by decide)
      · exact absurd k2.1 (by decide)
      · have ht := (charPairs_mem k3).1
        rcases hs 't' ht with hd | hh
        · exact absurd hd (by decide)
        · exact absurd hh (by decide)
  · exact absurd h2.2 (by decide)
  · exact absurd h3 (by decide)

/-- A truthy optional string is a concrete non-empty string. -/
theorem jsTruthy_true_iff (v : Option String) :
    jsTruthy v = true ↔ ∃ s, v = some s ∧ s ≠ "" := by
  cases v with
  | none => simp [jsTruthy]
  | some s => simp [jsTruthy]

/-- C9: the export filename contains the segment `_from_<startDate>`
exactly when the range's start is present, the segment `_to_<endDate>`
exactly when its end is present, always ends in `.csv`, and is the bare
`hr_analytics_export.csv` when no range is set.  The hypothesis records
that dates are ISO strings (digits and hyphens), which rules out marker
look-alikes inside a date. -/
theorem exportFilename_spec (dateRange : Option DateRange)
    (hdates : ∀ r, dateRange = some r →
      (∀ s, r.startDate = some s → ∀ c ∈ s.data, c.isDigit = true ∨ c = '-') ∧
      (∀ s, r.endDate = some s → ∀ c ∈ s.data, c.isDigit = true ∨ c = '-')) :
    (∀ s, truthyVal (dateRange.bind DateRange.startDate) = some s →
      ("_from_".data ++ s.data) <:+: exportFilename dateRange) ∧
    (truthyVal (dateRange.bind DateRange.startDate) = none →
      ¬ ("_from_".data <:+: exportFilename dateRange)) ∧
    (∀ s, truthyVal (dateRange.bind DateRange.endDate) = some s →
      ("_to_".data ++ s.data) <:+: exportFilename dateRange) ∧
    (truthyVal (dateRange.bind DateRange.endDate) = none →
      ¬ ("_to_".data <:+: exportFilename dateRange)) ∧
    ".csv".data <:+ exportFilename dateRange ∧
    (dateRange.bind DateRange.startDate = none →
      dateRange.bind DateRange.endDate = none →
      exportFilename dateRange = "hr_analytics_export.csv".data) := by
  have hsCh : ∀ s, dateRange.bind DateRange.startDate = some s →
      ∀ c ∈ s.data, c.isDigit = true ∨ c = '-' := by
    intro s hs c hc
    cases hdr : dateRange with
    | none => rw [hdr] at hs; exact Option.noConfusion hs
    | some r => rw [hdr] at hs; exact (hdates r hdr).1 s hs c hc
  have heCh : ∀ s, dateRange.bind DateRange.endDate = some s →
      ∀ c ∈ s.data, c.isDigit = true ∨ c = '-' := by
    intro s hs c hc
    cases hdr : dateRange with
    | none => rw [hdr] at hs; exact Option.noConfusion hs
    | some r => rw [hdr] at hs; exact (hdates r hdr).2 s hs c hc
  cases hst : jsTruthy (dateRange.bind DateRange.startDate) with
  | false =>
    cases het : jsTruthy (dateRange.bind DateRange.endDate) with
    | false =>
      have hf : exportFilename dateRange
          = "hr_analytics_export".data ++ ".csv".data := by
        simp [exportFilename, hst, het]
      refine ⟨?_, ?_, ?_, ?_, ?_, ?_⟩
      · intro s h
        simp [truthyVal, hst] at h
      · intro _
        rw [hf]
        decide
      · intro s h
        simp [truthyVal, het] at h
      · intro _
        rw [hf]
        decide
      · rw [hf]
        exact ⟨"hr_analytics_export".data, rfl⟩
      · intro _ _
        rw [hf]
        decide
    | true =>
      obtain ⟨e0, hee, he0⟩ := (jsTruthy_true_iff _).mp het
      have hje : jsTruthy (some e0) = true := hee ▸ het
      have hf : exportFilename dateRange
          = "hr_analytics_export".data ++ ("_to_".data ++ e0.data)
            ++ ".csv".data := by
        simp [exportFilename, hst, het, hee, hje]
      refine ⟨?_, ?_, ?_, ?_, ?_, ?_⟩
      · intro s h
        simp [truthyVal, hst] at h
      · intro _ hcontra
        rw [hf] at hcontra
        refine no_from_of_no_m ("_to_".data ++ e0.data) ?_ hcontra
        intro hmem
        rcases List.mem_append.mp hmem with hT | hE
        · exact absurd hT (by decide)
        · rcases heCh e0 hee 'm' hE with hd | hh
          · exact absurd hd (by decide)
          · exact absurd hh (by decide)
      · intro s h
        simp [truthyVal, het, hee, hje] at h
        subst h
        rw [hf]
        exact ⟨"hr_analytics_export".data, ".csv".data, rfl⟩
      · intro h
        simp [truthyVal, het, hee, hje] at h
      · rw [hf]
        exact ⟨"hr_analytics_export".data ++ ("_to_".data ++ e0.data), by simp⟩
      · intro _ h2
        rw [hee] at h2
        exact Option.noConfusion h2
  | true =>
    obtain ⟨s0, hse, hs0⟩ := (jsTruthy_true_iff _).mp hst
    have hjs : jsTruthy (some s0) = true := hse ▸ hst
    cases het : jsTruthy (dateRange.bind DateRange.endDate) with
    | false =>
      have hf : exportFilename dateRange
          = "hr_analytics_export".data ++ ("_from_".data ++ s0.data)
            ++ ".csv".data := by
        simp [exportFilename, hst, het, hse, hjs]
      refine ⟨?_, ?_, ?_, ?_, ?_, ?_⟩
      · intro s h
        simp [truthyVal, hst, hse, hjs] at h
        subst h
        rw [hf]
        exact ⟨"hr_analytics_export".data, ".csv".data, rfl⟩
      · intro h
        simp [truthyVal, hst, hse, hjs] at h
      · intro s h
        simp [truthyVal, het] at h
      · intro _ hcontra
        rw [hf] at hcontra
        exact no_to_of_from_seg s0.data (hsCh s0 hse) hcontra
      · rw [hf]
        exact ⟨"hr_analytics_export".data ++ ("_from_".data ++ s0.data), by simp⟩
      · intro h1 _
        rw [hse] at h1
        exact Option.noConfusion h1
    | true =>
      obtain ⟨e0, hee, he0⟩ := (jsTruthy_true_iff _).mp het
      have hje : jsTruthy (some e0) = true := hee ▸ het
      have hf : exportFilename dateRange
          = "hr_analytics_export".data ++ ("_from_".data ++ s0.data)
            ++ ("_to_".data ++ e0.data) ++ ".csv".data := by
        simp [exportFilename, hst, het, hse, hee, hjs, hje]
      refine ⟨?_, ?_, ?_, ?_, ?_, ?_⟩
      · intro s h
        simp [truthyVal, hst, hse, hjs] at h
        subst h
        rw [hf]
        exact ⟨"hr_analytics_export".data,
          ("_to_".data ++ e0.data) ++ ".csv".data, by simp⟩
      · intro h
        simp [truthyVal, hst, hse, hjs] at h
      · intro s h
        simp [truthyVal, het, hee, hje] at h
        subst h
        rw [hf]
        exact ⟨"hr_analytics_export".data ++ ("_from_".data ++ s0.data),
          ".csv".data, by simp⟩
      · intro h
        simp [truthyVal, het, hee, hje] at h
      · rw [hf]
        exact ⟨"hr_analytics_export".data ++ ("_from_".data ++ s0.data)
          ++ ("_to_".data ++ e0.data), by simp⟩
      · intro h1 _
        rw [hse] at h1
        exact Option.noConfusion h1

/-- Witness for C9 at a concrete range: both segments occur, the filename
ends in `.csv`, and the null range yields the bare filename. -/
theorem exportFilename_spec_witness :
    (("_from_".data ++ "2024-01-01".data) <:+: exportFilename (some sampleRange)) ∧
    (("_to_".data ++ "2024-02-01".data) <:+: exportFilename (some sampleRange)) ∧
    (".csv".data <:+ exportFilename (some sampleRange)) ∧
    exportFilename none = "hr_analytics_export.csv".data := by
  have hd : ∀ r, (some sampleRange : Option DateRange) = some r →
      (∀ s, r.startDate = some s → ∀ c ∈ s.data, c.isDigit = true ∨ c = '-') ∧
      (∀ s, r.endDate = some s → ∀ c ∈ s.data, c.isDigit = true ∨ c = '-') := by
    intro r hr
    cases hr
    refine ⟨fun s hs c hc => ?_, fun s hs c hc => ?_⟩
    · cases hs
      exact (by decide : ∀ c ∈ "2024-01-01".data, c.isDigit = true ∨ c = '-') c hc
    · cases hs
      exact (by decide : ∀ c ∈ "2024-02-01".data, c.isDigit = true ∨ c = '-') c hc
  refine ⟨?_, ?_, ?_, ?_⟩
  · exact (exportFilename_spec (some sampleRange) hd).1 "2024-01-01" (by decide)
  · exact (exportFilename_spec (some sampleRange) hd).2.2.1 "2024-02-01" (by decide)
  · exact (exportFilename_spec (some sampleRange) hd).2.2.2.2.1
  · exact (exportFilename_spec none (fun r hr => nomatch hr)).2.2.2.2.2 rfl rfl
